import Mathlib

/-!
Shallow embedding of MemGlance.py: a script that loads a Volatility
process list (pslist.csv) and network-connection list (netscan.csv),
builds a directed graph correlating processes with outbound connections,
and renders it.  The embedding models the pandas cell values, the two
loaders with their validation and coercion, the netscan filter, the
networkx graph construction (insertion-ordered node/edge stores with
update-in-place semantics, as nx.DiGraph.add_node / add_edge behave),
and the static-render color lookup that reads every node's "color"
attribute.
-/

namespace MemGlance

/-- A pandas cell after `read_csv`: either a value `to_numeric` can parse
(`num`), a non-numeric string (`str`), or a missing value / NaN (`na`).
Integer-valued cells are modelled at the integer level. -/
inductive RawVal where
  | num (n : Int)
  | str (s : String)
  | na
deriving Repr, DecidableEq

/-- `pd.to_numeric(col, errors="coerce").fillna(0).astype(int)`:
numeric cells keep their value, non-numeric and missing cells become 0
(lines 29-30 and 47-48 of MemGlance.py). -/
def coerceInt : RawVal → Int
  | .num n => n
  | .str _ => 0
  | .na => 0

/-- How a cell renders inside a Python f-string (`f"{name} ({pid})"`):
NaN prints as "nan". -/
def showCell : RawVal → String
  | .num n => toString n
  | .str s => s
  | .na => "nan"

/-- A CSV row as the association of column names to cell values.
A column present in the header but absent from the row is NaN. -/
abbrev Row := List (String × RawVal)

def getCell (row : Row) (col : String) : RawVal :=
  match row with
  | [] => .na
  | (c, v) :: rest => if c = col then v else getCell rest col

/-- A parsed CSV table: the header and the data rows. -/
structure RawTable where
  columns : List String
  rows : List Row
deriving Repr, DecidableEq

/-- The three ways a `pd.read_csv` call can go: the file is missing
(FileNotFoundError), the CSV fails to parse (some other exception),
or a table is obtained. -/
inductive LoadInput where
  | missing
  | parseError (msg : String)
  | table (t : RawTable)
deriving Repr, DecidableEq

/-- A pslist row after coercion: PID and PPID as coerced integers,
ImageFileName as the string the f-string would render. -/
structure PRow where
  pid : Int
  ppid : Int
  name : String
deriving Repr, DecidableEq

/-- A netscan row after coercion: PID and ForeignPort as coerced
integers; Proto and ForeignAddr kept as raw cells, as the filter reads
them directly from the frame. -/
structure NRow where
  pid : Int
  port : Int
  proto : RawVal
  addr : RawVal
deriving Repr, DecidableEq

def requiredPslistCols : List String := ["PID", "PPID", "ImageFileName"]

def requiredNetscanCols : List String := ["PID", "ForeignAddr", "ForeignPort"]

def coerceP (row : Row) : PRow :=
  { pid := coerceInt (getCell row "PID")
    ppid := coerceInt (getCell row "PPID")
    name := showCell (getCell row "ImageFileName") }

def coerceN (row : Row) : NRow :=
  { pid := coerceInt (getCell row "PID")
    port := coerceInt (getCell row "ForeignPort")
    proto := getCell row "Proto"
    addr := getCell row "ForeignAddr" }

/-- Split a character list at every literal dot, modelling how the
regex `^\d+\.\d+\.\d+\.\d+$` decomposes its subject. -/
def splitDots : List Char → List (List Char)
  | [] => [[]]
  | c :: rest =>
    match splitDots rest with
    | [] => []
    | p :: ps => if c = '.' then [] :: p :: ps else (c :: p) :: ps

def allDigits1 (l : List Char) : Bool :=
  !l.isEmpty && l.all (fun c => c.isDigit)

/-- Full match of `^\d+\.\d+\.\d+\.\d+$`: exactly four nonempty
all-digit runs separated by dots. -/
def isIPv4Chars (l : List Char) : Bool :=
  match splitDots l with
  | [a, b, c, d] => allDigits1 a && allDigits1 b && allDigits1 c && allDigits1 d
  | _ => false

/-- `netscan_df["ForeignAddr"].str.match(r'^\d+\.\d+\.\d+\.\d+$', na=False)`:
string cells are tested against the regex, NaN and non-string cells give
False (line 51). -/
def matchesIPv4 : RawVal → Bool
  | .str s => isIPv4Chars s.data
  | _ => false

/-- `netscan_df["Proto"] == "TCPv4"`: only a string cell equal to
"TCPv4" compares equal (line 50). -/
def protoTCPv4 : RawVal → Bool
  | .str s => s = "TCPv4"
  | _ => false

/-- `netscan_df["ForeignAddr"] != "0.0.0.0"`: a NaN or numeric cell is
unequal to the string, a string cell compares by value (line 52). -/
def addrNe0 : RawVal → Bool
  | .str s => s ≠ "0.0.0.0"
  | _ => true

/-- The netscan row filter of lines 50-52. -/
def keepRow (r : NRow) : Bool :=
  protoTCPv4 r.proto && matchesIPv4 r.addr && addrNe0 r.addr

def isStrCell : RawVal → Bool
  | .str _ => true
  | _ => false

/-- `read_csv` gives a column a numeric (non-object) dtype exactly when
it has rows and none of its cells is a non-numeric string; on such a
column the `.str` accessor of line 51 raises
`AttributeError: Can only use .str accessor with string values!`
(an all-missing column is float64 NaN, an all-numeric one int64/float64;
a zero-row column stays object dtype and `.str` works). -/
def strAccessorFails (t : RawTable) : Prop :=
  t.rows ≠ [] ∧ ∀ row ∈ t.rows, isStrCell (getCell row "ForeignAddr") = false

instance (t : RawTable) : Decidable (strAccessorFails t) := by
  unfold strAccessorFails
  infer_instance

/-- Loader for pslist.csv (lines 21-36): validate the required columns,
then coerce PID and PPID; any failure prints an error and exits. -/
def loadPslist : LoadInput → Except String (List PRow)
  | .missing => .error "Error: pslist.csv not found."
  | .parseError m => .error ("Error loading pslist.csv: " ++ m)
  | .table t =>
    if requiredPslistCols.all (fun c => decide (c ∈ t.columns)) then
      .ok (t.rows.map coerceP)
    else
      .error "Error loading pslist.csv: missing required columns"

/-- Loader for netscan.csv (lines 39-58): validate the required columns,
coerce PID and ForeignPort, then apply the filter.  The filter first
reads the Proto column, which is NOT in the validated set: if it is
absent the KeyError is caught by the handler and the program exits.
Next, line 51's `.str` accessor raises AttributeError when the
ForeignAddr column is of numeric dtype (nonempty with no string cell),
caught by the same handler. -/
def loadNetscan : LoadInput → Except String (List NRow)
  | .missing => .error "Error: netscan.csv not found."
  | .parseError m => .error ("Error loading netscan.csv: " ++ m)
  | .table t =>
    if requiredNetscanCols.all (fun c => decide (c ∈ t.columns)) then
      if "Proto" ∈ t.columns then
        if strAccessorFails t then
          .error "Error loading netscan.csv: AttributeError str accessor"
        else
          .ok ((t.rows.map coerceN).filter keepRow)
      else
        .error "Error loading netscan.csv: KeyError Proto"
    else
      .error "Error loading netscan.csv: missing required columns"

/-! ## The networkx graph model

`nx.DiGraph` keeps nodes and edges in insertion order; `add_node` on an
existing node updates its attributes in place, `add_edge` creates missing
endpoints WITHOUT attributes and updates the edge attributes in place if
the edge already exists. -/

structure NodeAttrs where
  label : String
  color : String
  shape : String
deriving Repr, DecidableEq

/-- Graph node identity: process nodes are the integer PIDs, IP nodes
are the foreign-address strings (distinct Python types, never equal). -/
inductive NodeId where
  | pid (n : Int)
  | addr (s : String)
deriving Repr, DecidableEq

structure EdgeAttrs where
  style : String
  label : Option String
deriving Repr, DecidableEq

/-- `add_node` on the node store: replace the attributes in place if the
node exists, else append it. -/
def setNodeList : List (NodeId × Option NodeAttrs) → NodeId → NodeAttrs →
    List (NodeId × Option NodeAttrs)
  | [], i, a => [(i, some a)]
  | (j, b) :: rest, i, a =>
    if j = i then (j, some a) :: rest else (j, b) :: setNodeList rest i a

/-- `add_edge` endpoint creation: append the node without attributes if
absent, leave it untouched if present. -/
def ensureNodeList : List (NodeId × Option NodeAttrs) → NodeId →
    List (NodeId × Option NodeAttrs)
  | [], i => [(i, none)]
  | (j, b) :: rest, i =>
    if j = i then (j, b) :: rest else (j, b) :: ensureNodeList rest i

/-- `add_edge` on the edge store: replace the attributes in place if the
edge exists, else append it. -/
def setEdgeList : List (NodeId × NodeId × EdgeAttrs) → NodeId → NodeId →
    EdgeAttrs → List (NodeId × NodeId × EdgeAttrs)
  | [], u, v, a => [(u, v, a)]
  | (x, y, b) :: rest, u, v, a =>
    if x = u ∧ y = v then (x, y, a) :: rest else (x, y, b) :: setEdgeList rest u v a

structure Graph where
  nodes : List (NodeId × Option NodeAttrs)
  edges : List (NodeId × NodeId × EdgeAttrs)
deriving Repr, DecidableEq

def Graph.empty : Graph := ⟨[], []⟩

def addNode (g : Graph) (i : NodeId) (a : NodeAttrs) : Graph :=
  { g with nodes := setNodeList g.nodes i a }

def addEdge (g : Graph) (u v : NodeId) (a : EdgeAttrs) : Graph :=
  { nodes := ensureNodeList (ensureNodeList g.nodes u) v
    edges := setEdgeList g.edges u v a }

def lookupN : List (NodeId × Option NodeAttrs) → NodeId → Option (Option NodeAttrs)
  | [], _ => none
  | (j, b) :: rest, i => if j = i then some b else lookupN rest i

def lookupE : List (NodeId × NodeId × EdgeAttrs) → NodeId → NodeId → Option EdgeAttrs
  | [], _, _ => none
  | (x, y, b) :: rest, u, v => if x = u ∧ y = v then some b else lookupE rest u v

/-- `some none` means the node exists without a "color"/"label" attribute
dictionary entry (created by `add_edge`); `some (some a)` means it exists
with attributes; `none` means it is absent. -/
def lookupNode (g : Graph) (i : NodeId) : Option (Option NodeAttrs) :=
  lookupN g.nodes i

def edgeAttr (g : Graph) (u v : NodeId) : Option EdgeAttrs :=
  lookupE g.edges u v

def nodeIds (g : Graph) : List NodeId := g.nodes.map (fun e => e.1)

def edgeKeys (g : Graph) : List (NodeId × NodeId) :=
  g.edges.map (fun e => (e.1, e.2.1))

/-! ## Graph construction (lines 61-83) -/

/-- Line 68: red iff the PID occurs among the retained netscan PIDs. -/
def pColor (netPids : List Int) (p : Int) : String :=
  if p ∈ netPids then "red" else "lightblue"

def pAttrs (netPids : List Int) (r : PRow) : NodeAttrs :=
  { label := r.name ++ " (" ++ toString r.pid ++ ")"
    color := pColor netPids r.pid
    shape := "circle" }

def solidAttrs : EdgeAttrs := { style := "solid", label := none }

/-- One iteration of the pslist loop (lines 64-71): add the process node,
then the parent edge when the PPID occurs among the pslist PIDs and is
nonzero. -/
def addProcessRow (netPids psPids : List Int) (g : Graph) (r : PRow) : Graph :=
  if r.ppid ∈ psPids ∧ r.ppid ≠ 0 then
    addEdge (addNode g (.pid r.pid) (pAttrs netPids r)) (.pid r.ppid) (.pid r.pid) solidAttrs
  else
    addNode g (.pid r.pid) (pAttrs netPids r)

/-- Python truthiness of the ForeignAddr cell in `not ip` (line 78):
the empty string and the number 0 are falsy; NaN is truthy. -/
def ipFalsy : RawVal → Bool
  | .str s => s.data.isEmpty
  | .num n => n = 0
  | .na => false

/-- The string the connection loop works with.  After the filter the
cell is always a string; the other branches mirror how Python would
render the value if it reached a string context. -/
def getAddrStr : RawVal → String
  | .str s => s
  | .num n => toString n
  | .na => "nan"

/-- Python `str.startswith`: the second list is a leading segment of the
first. -/
def charsStartWith : List Char → List Char → Bool
  | _, [] => true
  | [], _ :: _ => false
  | c :: s, p :: ps => p = c && charsStartWith s ps

def startsW (s p : String) : Bool := charsStartWith s.data p.data

/-- Line 81: orange unless the address is in 192.168.0.0/16 or 10.0.0.0/8
by string test. -/
def ipColor (s : String) : String :=
  if !(startsW s "192.168.") && !(startsW s "10.") then "orange"
  else "lightgreen"

def ipAttrs (s : String) : NodeAttrs :=
  { label := s, color := ipColor s, shape := "box" }

def dashAttrs (port : Int) : EdgeAttrs :=
  { style := "dashed", label := some ("Port: " ++ toString port) }

/-- One iteration of the connection loop (lines 74-83): skip when the PID
is 0 or the address is falsy, else add the IP node and the dashed edge. -/
def addNetRow (g : Graph) (r : NRow) : Graph :=
  if r.pid = 0 ∨ ipFalsy r.addr then g
  else
    addEdge (addNode g (.addr (getAddrStr r.addr)) (ipAttrs (getAddrStr r.addr)))
      (.pid r.pid) (.addr (getAddrStr r.addr)) (dashAttrs r.port)

/-- Lines 61-83: fold the pslist rows, then the (already filtered)
netscan rows, over the empty digraph. -/
def buildGraph (ps : List PRow) (ns : List NRow) : Graph :=
  ns.foldl addNetRow
    (ps.foldl (addProcessRow (ns.map (fun r => r.pid)) (ps.map (fun r => r.pid))) Graph.empty)

/-- Line 88: `[G.nodes[node]["color"] for node in G.nodes]` — reads the
color of every node in insertion order; the first node created without
attributes raises a KeyError. -/
def nodeColors : List (NodeId × Option NodeAttrs) → Except String (List String)
  | [] => .ok []
  | (_, none) :: _ => .error "KeyError: color"
  | (_, some a) :: rest => (nodeColors rest).map (fun cs => a.color :: cs)

/-! ## Whole-program control flow -/

/-- The observable outcome: `exited` is a handled error (printed message,
`exit(1)`); `crashed` is an uncaught exception (the KeyError of the
render step); `finished` carries the graph and whether the pyvis
fallback (lines 110-114) ran. -/
inductive Result where
  | exited (code : Nat) (msg : String)
  | crashed (msg : String)
  | finished (g : Graph) (usedFallback : Bool)
deriving Repr, DecidableEq

/-- The program: load pslist (exit 1 on failure), load netscan (exit 1 on
failure), build the graph, render statically (uncaught KeyError if a node
has no attributes), then render interactively — if `net.show` fails the
handler prints a warning, generates the HTML manually and CONTINUES. -/
def runProgram (psIn nsIn : LoadInput) (showFails : Bool) : Result :=
  match loadPslist psIn with
  | .error m => .exited 1 m
  | .ok ps =>
    match loadNetscan nsIn with
    | .error m => .exited 1 m
    | .ok ns =>
      let g := buildGraph ps ns
      match nodeColors g.nodes with
      | .error m => .crashed m
      | .ok _ => .finished g showFails

def isErrorE (e : Except String α) : Bool :=
  match e with
  | .error _ => true
  | .ok _ => false

def Result.isExited : Result → Bool
  | .exited _ _ => true
  | _ => false

def Result.fellBack : Result → Bool
  | .finished _ b => b
  | _ => false

/-- The node is absent, or present without an attribute dictionary
(the state `add_edge` leaves an endpoint it had to create in). -/
def weakAttrs (o : Option (Option NodeAttrs)) : Prop := o = none ∨ o = some none

/-- The last row of the list whose (coerced) PID is `p` — the row whose
`add_node` call wins when PIDs repeat. -/
def lastPidRow (p : Int) : List PRow → Option PRow
  | [] => none
  | r :: t =>
    match lastPidRow p t with
    | some r2 => some r2
    | none => if r.pid = p then some r else none

/-! ## Lemmas about the node and edge stores -/

theorem lookupN_set (l : List (NodeId × Option NodeAttrs)) (i : NodeId) (a : NodeAttrs)
    (j : NodeId) :
    lookupN (setNodeList l i a) j = if i = j then some (some a) else lookupN l j := by
  induction l with
  | nil => by_cases h : i = j <;> simp [setNodeList, lookupN, h]
  | cons hd tl ih =>
    obtain ⟨j0, b⟩ := hd
    by_cases h1 : j0 = i
    · subst h1
      by_cases h2 : j0 = j <;> simp [setNodeList, lookupN, h2]
    · by_cases h2 : j0 = j
      · subst h2
        have h3 : ¬ i = j0 := fun h => h1 h.symm
        simp [setNodeList, lookupN, h1, h3]
      · simp [setNodeList, lookupN, h1, h2, ih]

theorem lookupN_ensure (l : List (NodeId × Option NodeAttrs)) (i j : NodeId) :
    lookupN (ensureNodeList l i) j =
      if i = j then some ((lookupN l i).getD none) else lookupN l j := by
  induction l with
  | nil => by_cases h : i = j <;> simp [ensureNodeList, lookupN, h]
  | cons hd tl ih =>
    obtain ⟨j0, b⟩ := hd
    by_cases h1 : j0 = i
    · subst h1
      by_cases h2 : j0 = j <;> simp [ensureNodeList, lookupN, h2]
    · by_cases h2 : j0 = j
      · subst h2
        have h3 : ¬ i = j0 := fun h => h1 h.symm
        simp [ensureNodeList, lookupN, h1, h3]
      · simp [ensureNodeList, lookupN, h1, h2, ih]

theorem lookupE_set (l : List (NodeId × NodeId × EdgeAttrs)) (u v : NodeId) (a : EdgeAttrs)
    (x y : NodeId) :
    lookupE (setEdgeList l u v a) x y =
      if u = x ∧ v = y then some a else lookupE l x y := by
  induction l with
  | nil => by_cases h : u = x ∧ v = y <;> simp [setEdgeList, lookupE, h]
  | cons hd tl ih =>
    obtain ⟨x0, y0, b⟩ := hd
    by_cases h1 : x0 = u ∧ y0 = v
    · obtain ⟨hx, hy⟩ := h1
      subst hx; subst hy
      by_cases h2 : x0 = x ∧ y0 = y <;> simp [setEdgeList, lookupE, h2]
    · by_cases h2 : x0 = x ∧ y0 = y
      · obtain ⟨hx, hy⟩ := h2
        subst hx; subst hy
        have h3 : ¬ (u = x0 ∧ v = y0) := fun hh => h1 ⟨hh.1.symm, hh.2.symm⟩
        simp [setEdgeList, lookupE, h1, h3]
      · simp [setEdgeList, lookupE, h1, h2, ih]

theorem lookupN_isSome_iff (l : List (NodeId × Option NodeAttrs)) (i : NodeId) :
    (lookupN l i).isSome = true ↔ i ∈ l.map (fun e => e.1) := by
  induction l with
  | nil => simp [lookupN]
  | cons hd tl ih =>
    obtain ⟨j, b⟩ := hd
    by_cases h : j = i
    · subst h; simp [lookupN]
    · have h2 : ¬ i = j := fun hh => h hh.symm
      simp [lookupN, h, h2, ih]

theorem lookupE_isSome_iff (l : List (NodeId × NodeId × EdgeAttrs)) (u v : NodeId) :
    (lookupE l u v).isSome = true ↔ (u, v) ∈ l.map (fun e => (e.1, e.2.1)) := by
  induction l with
  | nil => simp [lookupE]
  | cons hd tl ih =>
    obtain ⟨x, y, b⟩ := hd
    by_cases h : x = u ∧ y = v
    · obtain ⟨hx, hy⟩ := h
      subst hx; subst hy
      simp [lookupE]
    · have h2 : ¬ ((u, v) = (x, y)) := by
        intro hh
        injection hh with hu hv
        exact h ⟨hu.symm, hv.symm⟩
      simp [lookupE, h, h2, ih]

theorem lookupN_mem (l : List (NodeId × Option NodeAttrs)) (i : NodeId)
    (b : Option NodeAttrs) (h : lookupN l i = some b) : (i, b) ∈ l := by
  induction l with
  | nil => simp [lookupN] at h
  | cons hd tl ih =>
    obtain ⟨j, c⟩ := hd
    by_cases h1 : j = i
    · subst h1
      simp [lookupN] at h
      subst h
      exact List.mem_cons_self _ _
    · simp [lookupN, h1] at h
      exact List.mem_cons_of_mem _ (ih h)

theorem nodeColors_ok_iff (l : List (NodeId × Option NodeAttrs)) :
    isErrorE (nodeColors l) = false ↔ ∀ e ∈ l, e.2.isSome = true := by
  induction l with
  | nil => simp [nodeColors, isErrorE]
  | cons hd tl ih =>
    obtain ⟨j, b⟩ := hd
    cases b with
    | none => simp [nodeColors, isErrorE]
    | some a =>
      have hmap : isErrorE ((nodeColors tl).map (fun cs => a.color :: cs)) =
          isErrorE (nodeColors tl) := by
        cases nodeColors tl <;> rfl
      simp [nodeColors, hmap, ih]

theorem mem_nodeIds_iff (g : Graph) (i : NodeId) :
    i ∈ nodeIds g ↔ (lookupNode g i).isSome = true :=
  (lookupN_isSome_iff g.nodes i).symm

theorem mem_edgeKeys_iff (g : Graph) (u v : NodeId) :
    (u, v) ∈ edgeKeys g ↔ (edgeAttr g u v).isSome = true :=
  (lookupE_isSome_iff g.edges u v).symm

/-! ## Graph-level lemmas -/

theorem lookupN_ensure_of_some (l : List (NodeId × Option NodeAttrs)) (i j : NodeId)
    (b : Option NodeAttrs) (h : lookupN l j = some b) :
    lookupN (ensureNodeList l i) j = some b := by
  rw [lookupN_ensure]
  by_cases hij : i = j
  · subst hij; simp [h]
  · simp [hij, h]

theorem lookupN_ensure_other (l : List (NodeId × Option NodeAttrs)) (i j : NodeId)
    (h : i ≠ j) : lookupN (ensureNodeList l i) j = lookupN l j := by
  rw [lookupN_ensure]; simp [h]

theorem lookupN_ensure_weak (l : List (NodeId × Option NodeAttrs)) (i j : NodeId)
    (h : weakAttrs (lookupN l j)) : weakAttrs (lookupN (ensureNodeList l i) j) := by
  rw [lookupN_ensure]
  by_cases hij : i = j
  · subst hij
    rcases h with h | h <;> simp [weakAttrs, h]
  · simpa [hij] using h

theorem lookupNode_addNode (g : Graph) (i : NodeId) (a : NodeAttrs) (j : NodeId) :
    lookupNode (addNode g i a) j = if i = j then some (some a) else lookupNode g j :=
  lookupN_set g.nodes i a j

theorem lookupNode_addNode_other (g : Graph) (i : NodeId) (a : NodeAttrs) (j : NodeId)
    (h : i ≠ j) : lookupNode (addNode g i a) j = lookupNode g j := by
  rw [lookupNode_addNode]; simp [h]

theorem lookupNode_addEdge_of_some (g : Graph) (u v : NodeId) (a : EdgeAttrs) (j : NodeId)
    (b : Option NodeAttrs) (h : lookupNode g j = some b) :
    lookupNode (addEdge g u v a) j = some b :=
  lookupN_ensure_of_some _ v j b (lookupN_ensure_of_some _ u j b h)

theorem lookupNode_addEdge_other (g : Graph) (u v : NodeId) (a : EdgeAttrs) (j : NodeId)
    (hu : u ≠ j) (hv : v ≠ j) :
    lookupNode (addEdge g u v a) j = lookupNode g j := by
  show lookupN (ensureNodeList (ensureNodeList g.nodes u) v) j = lookupN g.nodes j
  rw [lookupN_ensure_other _ _ _ hv, lookupN_ensure_other _ _ _ hu]

theorem lookupNode_addEdge_weak (g : Graph) (u v : NodeId) (a : EdgeAttrs) (j : NodeId)
    (h : weakAttrs (lookupNode g j)) : weakAttrs (lookupNode (addEdge g u v a) j) :=
  lookupN_ensure_weak _ v j (lookupN_ensure_weak _ u j h)

theorem lookupNode_addNode_isSome (g : Graph) (i : NodeId) (a : NodeAttrs) (j : NodeId) :
    (lookupNode (addNode g i a) j).isSome = true ↔
      (lookupNode g j).isSome = true ∨ j = i := by
  rw [lookupNode_addNode]
  by_cases h : i = j
  · subst h; simp
  · have h2 : ¬ j = i := fun hh => h hh.symm
    simp [h, h2]

theorem lookupNode_addEdge_isSome (g : Graph) (u v : NodeId) (a : EdgeAttrs) (j : NodeId) :
    (lookupNode (addEdge g u v a) j).isSome = true ↔
      (lookupNode g j).isSome = true ∨ j = u ∨ j = v := by
  show (lookupN (ensureNodeList (ensureNodeList g.nodes u) v) j).isSome = true ↔ _
  by_cases hv : v = j
  · subst hv; simp [lookupN_ensure]
  · rw [lookupN_ensure_other _ _ _ hv]
    by_cases hu : u = j
    · subst hu; simp [lookupN_ensure]
    · rw [lookupN_ensure_other _ _ _ hu]
      have h2 : ¬ j = u := fun hh => hu hh.symm
      have h3 : ¬ j = v := fun hh => hv hh.symm
      simp [h2, h3, lookupNode]

theorem edgeAttr_addNode (g : Graph) (i : NodeId) (a : NodeAttrs) (u v : NodeId) :
    edgeAttr (addNode g i a) u v = edgeAttr g u v := rfl

theorem edgeAttr_addEdge (g : Graph) (u v : NodeId) (a : EdgeAttrs) (x y : NodeId) :
    edgeAttr (addEdge g u v a) x y = if u = x ∧ v = y then some a else edgeAttr g x y :=
  lookupE_set g.edges u v a x y

/-! ## Step lemmas for the two row loops -/

theorem addProcessRow_lookup_addr (np pls : List Int) (g : Graph) (r : PRow) (s : String) :
    lookupNode (addProcessRow np pls g r) (.addr s) = lookupNode g (.addr s) := by
  unfold addProcessRow
  by_cases hc : r.ppid ∈ pls ∧ r.ppid ≠ 0
  · rw [if_pos hc,
      lookupNode_addEdge_other _ _ _ _ _ (fun hh => NodeId.noConfusion hh)
        (fun hh => NodeId.noConfusion hh),
      lookupNode_addNode_other _ _ _ _ (fun hh => NodeId.noConfusion hh)]
  · rw [if_neg hc, lookupNode_addNode_other _ _ _ _ (fun hh => NodeId.noConfusion hh)]

theorem addProcessRow_lookup_self (np pls : List Int) (g : Graph) (r : PRow) :
    lookupNode (addProcessRow np pls g r) (.pid r.pid) = some (some (pAttrs np r)) := by
  unfold addProcessRow
  by_cases hc : r.ppid ∈ pls ∧ r.ppid ≠ 0
  · rw [if_pos hc]
    apply lookupNode_addEdge_of_some
    rw [lookupNode_addNode, if_pos rfl]
  · rw [if_neg hc, lookupNode_addNode, if_pos rfl]

theorem addProcessRow_lookup_of_some (np pls : List Int) (g : Graph) (r : PRow) (q : Int)
    (hq : q ≠ r.pid) (b : Option NodeAttrs) (h : lookupNode g (.pid q) = some b) :
    lookupNode (addProcessRow np pls g r) (.pid q) = some b := by
  unfold addProcessRow
  have hne : NodeId.pid r.pid ≠ NodeId.pid q := by
    intro hh; injection hh with h2; exact hq h2.symm
  by_cases hc : r.ppid ∈ pls ∧ r.ppid ≠ 0
  · rw [if_pos hc]
    apply lookupNode_addEdge_of_some
    rw [lookupNode_addNode_other _ _ _ _ hne]
    exact h
  · rw [if_neg hc, lookupNode_addNode_other _ _ _ _ hne]
    exact h

theorem addProcessRow_lookup_weak (np pls : List Int) (g : Graph) (r : PRow) (q : Int)
    (hq : q ≠ r.pid) (h : weakAttrs (lookupNode g (.pid q))) :
    weakAttrs (lookupNode (addProcessRow np pls g r) (.pid q)) := by
  unfold addProcessRow
  have hne : NodeId.pid r.pid ≠ NodeId.pid q := by
    intro hh; injection hh with h2; exact hq h2.symm
  by_cases hc : r.ppid ∈ pls ∧ r.ppid ≠ 0
  · rw [if_pos hc]
    apply lookupNode_addEdge_weak
    rwa [lookupNode_addNode_other _ _ _ _ hne]
  · rw [if_neg hc, lookupNode_addNode_other _ _ _ _ hne]
    exact h

theorem addProcessRow_isSome (np pls : List Int) (g : Graph) (r : PRow) (i : NodeId) :
    (lookupNode (addProcessRow np pls g r) i).isSome = true ↔
      (lookupNode g i).isSome = true ∨ i = .pid r.pid ∨
        (i = .pid r.ppid ∧ r.ppid ∈ pls ∧ r.ppid ≠ 0) := by
  unfold addProcessRow
  by_cases hc : r.ppid ∈ pls ∧ r.ppid ≠ 0
  · rw [if_pos hc, lookupNode_addEdge_isSome, lookupNode_addNode_isSome]
    tauto
  · rw [if_neg hc, lookupNode_addNode_isSome]
    tauto

theorem addProcessRow_edgeAttr (np pls : List Int) (g : Graph) (r : PRow) (u v : NodeId) :
    edgeAttr (addProcessRow np pls g r) u v =
      if u = .pid r.ppid ∧ v = .pid r.pid ∧ r.ppid ∈ pls ∧ r.ppid ≠ 0 then some solidAttrs
      else edgeAttr g u v := by
  unfold addProcessRow
  by_cases hc : r.ppid ∈ pls ∧ r.ppid ≠ 0
  · rw [if_pos hc, edgeAttr_addEdge, edgeAttr_addNode]
    by_cases h2 : NodeId.pid r.ppid = u ∧ NodeId.pid r.pid = v
    · rw [if_pos h2, if_pos ⟨h2.1.symm, h2.2.symm, hc⟩]
    · rw [if_neg h2, if_neg (by intro hh; exact h2 ⟨hh.1.symm, hh.2.1.symm⟩)]
  · rw [if_neg hc, edgeAttr_addNode, if_neg (by intro hh; exact hc hh.2.2)]

theorem addNetRow_lookup_pid_of_some (g : Graph) (r : NRow) (q : Int) (b : Option NodeAttrs)
    (h : lookupNode g (.pid q) = some b) : lookupNode (addNetRow g r) (.pid q) = some b := by
  unfold addNetRow
  by_cases hc : r.pid = 0 ∨ ipFalsy r.addr
  · rw [if_pos hc]; exact h
  · rw [if_neg hc]
    apply lookupNode_addEdge_of_some
    rw [lookupNode_addNode_other _ _ _ _ (fun hh => NodeId.noConfusion hh)]
    exact h

theorem addNetRow_lookup_pid_weak (g : Graph) (r : NRow) (q : Int)
    (h : weakAttrs (lookupNode g (.pid q))) :
    weakAttrs (lookupNode (addNetRow g r) (.pid q)) := by
  unfold addNetRow
  by_cases hc : r.pid = 0 ∨ ipFalsy r.addr
  · rw [if_pos hc]; exact h
  · rw [if_neg hc]
    apply lookupNode_addEdge_weak
    rwa [lookupNode_addNode_other _ _ _ _ (fun hh => NodeId.noConfusion hh)]

theorem addNetRow_lookup_pid_none_active (g : Graph) (r : NRow)
    (hact : ¬(r.pid = 0 ∨ ipFalsy r.addr = true))
    (h : weakAttrs (lookupNode g (.pid r.pid))) :
    lookupNode (addNetRow g r) (.pid r.pid) = some none := by
  unfold addNetRow
  rw [if_neg hact]
  show lookupN (ensureNodeList (ensureNodeList _ (.pid r.pid)) (.addr (getAddrStr r.addr)))
      (.pid r.pid) = some none
  rw [lookupN_ensure_other _ _ _ (fun hh => NodeId.noConfusion hh), lookupN_ensure, if_pos rfl]
  have h3 : lookupN (addNode g (.addr (getAddrStr r.addr)) (ipAttrs (getAddrStr r.addr))).nodes
      (.pid r.pid) = lookupNode g (.pid r.pid) :=
    lookupNode_addNode_other _ _ _ _ (fun hh => NodeId.noConfusion hh)
  rw [h3]
  rcases h with h | h <;> simp [h]

theorem addNetRow_lookup_addr (g : Graph) (r : NRow) (s : String) :
    lookupNode (addNetRow g r) (.addr s) =
      if ¬(r.pid = 0 ∨ ipFalsy r.addr = true) ∧ getAddrStr r.addr = s
      then some (some (ipAttrs s)) else lookupNode g (.addr s) := by
  unfold addNetRow
  by_cases hc : r.pid = 0 ∨ ipFalsy r.addr
  · rw [if_pos hc, if_neg (by tauto)]
  · by_cases hs : getAddrStr r.addr = s
    · rw [if_neg hc, if_pos ⟨hc, hs⟩]
      subst hs
      apply lookupNode_addEdge_of_some
      rw [lookupNode_addNode, if_pos rfl]
    · rw [if_neg hc, if_neg (by tauto),
        lookupNode_addEdge_other _ _ _ _ _ (fun hh => NodeId.noConfusion hh)
          (by intro hh; injection hh with h2; exact hs h2),
        lookupNode_addNode_other _ _ _ _ (by intro hh; injection hh with h2; exact hs h2)]

theorem addNetRow_isSome (g : Graph) (r : NRow) (i : NodeId) :
    (lookupNode (addNetRow g r) i).isSome = true ↔
      (lookupNode g i).isSome = true ∨
        (¬(r.pid = 0 ∨ ipFalsy r.addr = true) ∧
          (i = .addr (getAddrStr r.addr) ∨ i = .pid r.pid)) := by
  unfold addNetRow
  by_cases hc : r.pid = 0 ∨ ipFalsy r.addr
  · rw [if_pos hc]; tauto
  · rw [if_neg hc, lookupNode_addEdge_isSome, lookupNode_addNode_isSome]
    tauto

theorem addNetRow_edgeAttr_pid_target (g : Graph) (r : NRow) (u : NodeId) (b : Int) :
    edgeAttr (addNetRow g r) u (.pid b) = edgeAttr g u (.pid b) := by
  unfold addNetRow
  by_cases hc : r.pid = 0 ∨ ipFalsy r.addr
  · rw [if_pos hc]
  · rw [if_neg hc, edgeAttr_addEdge, edgeAttr_addNode,
      if_neg (fun hh => NodeId.noConfusion hh.2)]

theorem addNetRow_edgeAttr_not_solid (g : Graph) (r : NRow) (u v : NodeId)
    (h : edgeAttr g u v ≠ some solidAttrs) :
    edgeAttr (addNetRow g r) u v ≠ some solidAttrs := by
  unfold addNetRow
  by_cases hc : r.pid = 0 ∨ ipFalsy r.addr
  · rw [if_pos hc]; exact h
  · rw [if_neg hc, edgeAttr_addEdge, edgeAttr_addNode]
    by_cases h2 : NodeId.pid r.pid = u ∧ NodeId.addr (getAddrStr r.addr) = v
    · rw [if_pos h2]
      intro hh
      injection hh with hh2
      have : EdgeAttrs.style (dashAttrs r.port) = EdgeAttrs.style solidAttrs :=
        congrArg EdgeAttrs.style hh2
      simp [dashAttrs, solidAttrs] at this
    · rw [if_neg h2]; exact h

theorem addNetRow_edgeAttr_isSome (g : Graph) (r : NRow) (u v : NodeId) :
    (edgeAttr (addNetRow g r) u v).isSome = true ↔
      (edgeAttr g u v).isSome = true ∨
        (¬(r.pid = 0 ∨ ipFalsy r.addr = true) ∧ u = .pid r.pid ∧
          v = .addr (getAddrStr r.addr)) := by
  unfold addNetRow
  by_cases hc : r.pid = 0 ∨ ipFalsy r.addr
  · rw [if_pos hc]; tauto
  · rw [if_neg hc, edgeAttr_addEdge, edgeAttr_addNode]
    by_cases h2 : NodeId.pid r.pid = u ∧ NodeId.addr (getAddrStr r.addr) = v
    · rw [if_pos h2]
      simp only [Option.isSome_some, true_iff]
      exact Or.inr ⟨hc, h2.1.symm, h2.2.symm⟩
    · rw [if_neg h2]
      constructor
      · intro h; exact Or.inl h
      · rintro (h | ⟨h3, h4, h5⟩)
        · exact h
        · exact absurd ⟨h4.symm, h5.symm⟩ h2

/-! ## Fold lemmas for the pslist loop -/

theorem lastPidRow_none_iff (p : Int) (ps : List PRow) :
    lastPidRow p ps = none ↔ ∀ r ∈ ps, r.pid ≠ p := by
  induction ps with
  | nil => simp [lastPidRow]
  | cons r0 t ih =>
    cases ht : lastPidRow p t with
    | some r2 =>
      simp only [lastPidRow, ht]
      constructor
      · intro h; exact absurd h (by simp)
      · intro h
        have : ∀ r ∈ t, r.pid ≠ p := fun r hr => h r (List.mem_cons_of_mem _ hr)
        rw [← ih] at this
        rw [this] at ht
        exact absurd ht (by simp)
    | none =>
      simp only [lastPidRow, ht]
      by_cases hp : r0.pid = p
      · simp only [if_pos hp]
        constructor
        · intro h; exact absurd h (by simp)
        · intro h; exact absurd hp (h r0 (List.mem_cons_self _ _))
      · simp only [if_neg hp]
        constructor
        · intro _ r hr
          rcases List.mem_cons.mp hr with h1 | h1
          · rw [h1]; exact hp
          · exact (ih.mp ht) r h1
        · intro _; trivial

theorem lastPidRow_spec (p : Int) (ps : List PRow) (r : PRow)
    (h : lastPidRow p ps = some r) : r.pid = p ∧ r ∈ ps := by
  induction ps with
  | nil => simp [lastPidRow] at h
  | cons r0 t ih =>
    cases ht : lastPidRow p t with
    | some r2 =>
      simp only [lastPidRow, ht, Option.some.injEq] at h
      subst h
      obtain ⟨h1, h2⟩ := ih ht
      exact ⟨h1, List.mem_cons_of_mem _ h2⟩
    | none =>
      simp only [lastPidRow, ht] at h
      by_cases hp : r0.pid = p
      · rw [if_pos hp] at h
        injection h with h2
        subst h2
        exact ⟨hp, List.mem_cons_self _ _⟩
      · rw [if_neg hp] at h
        exact absurd h (by simp)

theorem lastPidRow_isSome_of_mem (ps : List PRow) (r : PRow) (h : r ∈ ps) :
    (lastPidRow r.pid ps).isSome = true := by
  cases hl : lastPidRow r.pid ps with
  | some r2 => rfl
  | none =>
    have := (lastPidRow_none_iff _ _).mp hl r h
    exact absurd rfl this

theorem foldl_addProcessRow_lookup_addr (np pls : List Int) (ps : List PRow) (g : Graph)
    (s : String) :
    lookupNode (ps.foldl (addProcessRow np pls) g) (.addr s) = lookupNode g (.addr s) := by
  induction ps generalizing g with
  | nil => rfl
  | cons r t ih => rw [List.foldl_cons, ih, addProcessRow_lookup_addr]

theorem foldl_addProcessRow_preserve (np pls : List Int) (ps : List PRow) (g : Graph)
    (q : Int) (b : Option NodeAttrs) (hq : ∀ r ∈ ps, r.pid ≠ q)
    (h : lookupNode g (.pid q) = some b) :
    lookupNode (ps.foldl (addProcessRow np pls) g) (.pid q) = some b := by
  induction ps generalizing g with
  | nil => exact h
  | cons r0 t ih =>
    rw [List.foldl_cons]
    exact ih _ (fun x hx => hq x (List.mem_cons_of_mem _ hx))
      (addProcessRow_lookup_of_some np pls g r0 q
        (fun hh => hq r0 (List.mem_cons_self _ _) hh.symm) b h)

theorem foldl_addProcessRow_weak (np pls : List Int) (ps : List PRow) (g : Graph)
    (q : Int) (hq : ∀ r ∈ ps, r.pid ≠ q) (h : weakAttrs (lookupNode g (.pid q))) :
    weakAttrs (lookupNode (ps.foldl (addProcessRow np pls) g) (.pid q)) := by
  induction ps generalizing g with
  | nil => exact h
  | cons r0 t ih =>
    rw [List.foldl_cons]
    exact ih _ (fun x hx => hq x (List.mem_cons_of_mem _ hx))
      (addProcessRow_lookup_weak np pls g r0 q
        (fun hh => hq r0 (List.mem_cons_self _ _) hh.symm) h)

theorem foldl_addProcessRow_lookup_last (np pls : List Int) (ps : List PRow) (g : Graph)
    (p : Int) (r : PRow) (h : lastPidRow p ps = some r) :
    lookupNode (ps.foldl (addProcessRow np pls) g) (.pid p) = some (some (pAttrs np r)) := by
  induction ps generalizing g with
  | nil => simp [lastPidRow] at h
  | cons r0 t ih =>
    rw [List.foldl_cons]
    cases ht : lastPidRow p t with
    | some r2 =>
      simp only [lastPidRow, ht, Option.some.injEq] at h
      subst h
      exact ih _ ht
    | none =>
      have hall : ∀ x ∈ t, x.pid ≠ p := (lastPidRow_none_iff _ _).mp ht
      simp only [lastPidRow, ht] at h
      by_cases hp : r0.pid = p
      · rw [if_pos hp] at h
        injection h with h2
        subst h2
        apply foldl_addProcessRow_preserve np pls t _ p _ hall
        rw [← hp]
        exact addProcessRow_lookup_self np pls g r0
      · rw [if_neg hp] at h
        exact absurd h (by simp)

theorem foldl_addProcessRow_isSome (np pls : List Int) (ps : List PRow) (g : Graph)
    (i : NodeId) :
    (lookupNode (ps.foldl (addProcessRow np pls) g) i).isSome = true ↔
      (lookupNode g i).isSome = true ∨
        ∃ r ∈ ps, i = .pid r.pid ∨ (i = .pid r.ppid ∧ r.ppid ∈ pls ∧ r.ppid ≠ 0) := by
  induction ps generalizing g with
  | nil => simp
  | cons r0 t ih =>
    rw [List.foldl_cons, ih, addProcessRow_isSome]
    simp only [List.mem_cons]
    constructor
    · rintro ((h | h | h) | ⟨x, hx, hP⟩)
      · exact Or.inl h
      · exact Or.inr ⟨r0, Or.inl rfl, Or.inl h⟩
      · exact Or.inr ⟨r0, Or.inl rfl, Or.inr h⟩
      · exact Or.inr ⟨x, Or.inr hx, hP⟩
    · rintro (h | ⟨x, hx | hx, hP⟩)
      · exact Or.inl (Or.inl h)
      · subst hx
        rcases hP with h | h
        · exact Or.inl (Or.inr (Or.inl h))
        · exact Or.inl (Or.inr (Or.inr h))
      · exact Or.inr ⟨x, hx, hP⟩

theorem foldl_addProcessRow_edgeAttr (np pls : List Int) (ps : List PRow) (g : Graph)
    (u v : NodeId) :
    edgeAttr (ps.foldl (addProcessRow np pls) g) u v =
      if ∃ r ∈ ps, u = .pid r.ppid ∧ v = .pid r.pid ∧ r.ppid ∈ pls ∧ r.ppid ≠ 0
      then some solidAttrs else edgeAttr g u v := by
  induction ps generalizing g with
  | nil => simp
  | cons r0 t ih =>
    rw [List.foldl_cons, ih]
    by_cases hex : ∃ r ∈ t, u = .pid r.ppid ∧ v = .pid r.pid ∧ r.ppid ∈ pls ∧ r.ppid ≠ 0
    · rw [if_pos hex, if_pos ?hw]
      case hw =>
        obtain ⟨x, hx, hP⟩ := hex
        exact ⟨x, List.mem_cons_of_mem _ hx, hP⟩
    · rw [if_neg hex, addProcessRow_edgeAttr]
      by_cases h0 : u = .pid r0.ppid ∧ v = .pid r0.pid ∧ r0.ppid ∈ pls ∧ r0.ppid ≠ 0
      · rw [if_pos h0, if_pos ⟨r0, List.mem_cons_self _ _, h0⟩]
      · rw [if_neg h0, if_neg ?hn]
        case hn =>
          rintro ⟨x, hx, hP⟩
          rcases List.mem_cons.mp hx with h1 | h1
          · subst h1; exact h0 hP
          · exact hex ⟨x, h1, hP⟩

/-! ## Fold lemmas for the connection loop -/

theorem foldl_addNetRow_pid_of_some (ns : List NRow) (g : Graph) (q : Int)
    (b : Option NodeAttrs) (h : lookupNode g (.pid q) = some b) :
    lookupNode (ns.foldl addNetRow g) (.pid q) = some b := by
  induction ns generalizing g with
  | nil => exact h
  | cons r0 t ih =>
    rw [List.foldl_cons]
    exact ih _ (addNetRow_lookup_pid_of_some g r0 q b h)

theorem foldl_addNetRow_pid_weak (ns : List NRow) (g : Graph) (q : Int)
    (h : weakAttrs (lookupNode g (.pid q))) :
    weakAttrs (lookupNode (ns.foldl addNetRow g) (.pid q)) := by
  induction ns generalizing g with
  | nil => exact h
  | cons r0 t ih =>
    rw [List.foldl_cons]
    exact ih _ (addNetRow_lookup_pid_weak g r0 q h)

theorem foldl_addNetRow_pid_none (ns : List NRow) (g : Graph) (q : Int)
    (hweak : weakAttrs (lookupNode g (.pid q)))
    (hex : ∃ r ∈ ns, ¬(r.pid = 0 ∨ ipFalsy r.addr = true) ∧ r.pid = q) :
    lookupNode (ns.foldl addNetRow g) (.pid q) = some none := by
  induction ns generalizing g with
  | nil => simp at hex
  | cons r0 t ih =>
    rw [List.foldl_cons]
    obtain ⟨x, hx, hact, hpid⟩ := hex
    rcases List.mem_cons.mp hx with h1 | h1
    · subst h1
      subst hpid
      exact foldl_addNetRow_pid_of_some t _ _ none
        (addNetRow_lookup_pid_none_active g x hact hweak)
    · exact ih _ (addNetRow_lookup_pid_weak g r0 q hweak) ⟨x, h1, hact, hpid⟩

theorem foldl_addNetRow_lookup_addr (ns : List NRow) (g : Graph) (s : String) :
    lookupNode (ns.foldl addNetRow g) (.addr s) =
      if ∃ r ∈ ns, ¬(r.pid = 0 ∨ ipFalsy r.addr = true) ∧ getAddrStr r.addr = s
      then some (some (ipAttrs s)) else lookupNode g (.addr s) := by
  induction ns generalizing g with
  | nil => simp
  | cons r0 t ih =>
    rw [List.foldl_cons, ih]
    by_cases hex : ∃ r ∈ t, ¬(r.pid = 0 ∨ ipFalsy r.addr = true) ∧ getAddrStr r.addr = s
    · rw [if_pos hex, if_pos ?hw]
      case hw =>
        obtain ⟨x, hx, hP⟩ := hex
        exact ⟨x, List.mem_cons_of_mem _ hx, hP⟩
    · rw [if_neg hex, addNetRow_lookup_addr]
      by_cases h0 : ¬(r0.pid = 0 ∨ ipFalsy r0.addr = true) ∧ getAddrStr r0.addr = s
      · rw [if_pos h0, if_pos ⟨r0, List.mem_cons_self _ _, h0⟩]
      · rw [if_neg h0, if_neg ?hn]
        case hn =>
          rintro ⟨x, hx, hP⟩
          rcases List.mem_cons.mp hx with h1 | h1
          · subst h1; exact h0 hP
          · exact hex ⟨x, h1, hP⟩

theorem foldl_addNetRow_isSome (ns : List NRow) (g : Graph) (i : NodeId) :
    (lookupNode (ns.foldl addNetRow g) i).isSome = true ↔
      (lookupNode g i).isSome = true ∨
        ∃ r ∈ ns, ¬(r.pid = 0 ∨ ipFalsy r.addr = true) ∧
          (i = .addr (getAddrStr r.addr) ∨ i = .pid r.pid) := by
  induction ns generalizing g with
  | nil => simp
  | cons r0 t ih =>
    rw [List.foldl_cons, ih, addNetRow_isSome]
    simp only [List.mem_cons]
    constructor
    · rintro ((h | h) | ⟨x, hx, hP⟩)
      · exact Or.inl h
      · exact Or.inr ⟨r0, Or.inl rfl, h⟩
      · exact Or.inr ⟨x, Or.inr hx, hP⟩
    · rintro (h | ⟨x, hx | hx, hP⟩)
      · exact Or.inl (Or.inl h)
      · subst hx
        exact Or.inl (Or.inr hP)
      · exact Or.inr ⟨x, hx, hP⟩

theorem foldl_addNetRow_edgeAttr_pid_target (ns : List NRow) (g : Graph) (u : NodeId)
    (b : Int) :
    edgeAttr (ns.foldl addNetRow g) u (.pid b) = edgeAttr g u (.pid b) := by
  induction ns generalizing g with
  | nil => rfl
  | cons r0 t ih =>
    rw [List.foldl_cons, ih, addNetRow_edgeAttr_pid_target]

theorem foldl_addNetRow_edgeAttr_not_solid (ns : List NRow) (g : Graph) (u v : NodeId)
    (h : edgeAttr g u v ≠ some solidAttrs) :
    edgeAttr (ns.foldl addNetRow g) u v ≠ some solidAttrs := by
  induction ns generalizing g with
  | nil => exact h
  | cons r0 t ih =>
    rw [List.foldl_cons]
    exact ih _ (addNetRow_edgeAttr_not_solid g r0 u v h)

theorem foldl_addNetRow_edgeAttr_isSome (ns : List NRow) (g : Graph) (u v : NodeId) :
    (edgeAttr (ns.foldl addNetRow g) u v).isSome = true ↔
      (edgeAttr g u v).isSome = true ∨
        ∃ r ∈ ns, ¬(r.pid = 0 ∨ ipFalsy r.addr = true) ∧ u = .pid r.pid ∧
          v = .addr (getAddrStr r.addr) := by
  induction ns generalizing g with
  | nil => simp
  | cons r0 t ih =>
    rw [List.foldl_cons, ih, addNetRow_edgeAttr_isSome]
    simp only [List.mem_cons]
    constructor
    · rintro ((h | h) | ⟨x, hx, hP⟩)
      · exact Or.inl h
      · exact Or.inr ⟨r0, Or.inl rfl, h⟩
      · exact Or.inr ⟨x, Or.inr hx, hP⟩
    · rintro (h | ⟨x, hx | hx, hP⟩)
      · exact Or.inl (Or.inl h)
      · subst hx
        exact Or.inl (Or.inr hP)
      · exact Or.inr ⟨x, hx, hP⟩

/-! ## Consequences of the netscan filter -/

theorem isIPv4Chars_ne_nil (l : List Char) (h : isIPv4Chars l = true) : l ≠ [] := by
  intro hl
  subst hl
  exact absurd h (by decide)

theorem keepRow_addr (r : NRow) (h : keepRow r = true) :
    ∃ s, r.addr = .str s ∧ isIPv4Chars s.data = true ∧ s ≠ "0.0.0.0" := by
  have h2 : matchesIPv4 r.addr = true := by
    simp [keepRow, Bool.and_eq_true] at h
    tauto
  have h3 : addrNe0 r.addr = true := by
    simp [keepRow, Bool.and_eq_true] at h
    tauto
  cases ha : r.addr with
  | num n => rw [ha] at h2; simp [matchesIPv4] at h2
  | na => rw [ha] at h2; simp [matchesIPv4] at h2
  | str s =>
    rw [ha] at h2 h3
    refine ⟨s, rfl, h2, ?_⟩
    simpa [addrNe0] using h3

theorem keepRow_not_falsy (r : NRow) (h : keepRow r = true) : ipFalsy r.addr = false := by
  obtain ⟨s, ha, hip, _⟩ := keepRow_addr r h
  rw [ha]
  have hne := isIPv4Chars_ne_nil _ hip
  show s.data.isEmpty = false
  cases hd : s.data with
  | nil => exact absurd hd hne
  | cons c t => rfl

theorem retained_active_iff (ns : List NRow) (P : NRow → Prop) :
    (∃ r ∈ ns.filter keepRow, ¬(r.pid = 0 ∨ ipFalsy r.addr = true) ∧ P r) ↔
      ∃ r ∈ ns.filter keepRow, r.pid ≠ 0 ∧ P r := by
  constructor
  · rintro ⟨r, hr, hact, hP⟩
    exact ⟨r, hr, fun h0 => hact (Or.inl h0), hP⟩
  · rintro ⟨r, hr, hpid, hP⟩
    have hf := keepRow_not_falsy r (List.mem_filter.mp hr).2
    refine ⟨r, hr, ?_, hP⟩
    rintro (h0 | h0)
    · exact hpid h0
    · rw [hf] at h0
      exact Bool.false_ne_true h0

theorem ipColor_eq (s : String) :
    ipColor s =
      if startsW s "192.168." || startsW s "10." then "lightgreen" else "orange" := by
  unfold ipColor
  cases h1 : startsW s "192.168." <;> cases h2 : startsW s "10." <;> simp [h1, h2]

theorem lookupNode_empty (i : NodeId) : lookupNode Graph.empty i = none := rfl

theorem edgeAttr_empty (u v : NodeId) : edgeAttr Graph.empty u v = none := rfl

/-! ## Claim theorems -/

/-- C1: for every row of the pslist table, the process node added for its
PID ends up colored "red" if and only if that PID appears among the PIDs
of the connection rows retained after filtering, and "lightblue"
otherwise. -/
theorem C1_process_node_color (ps : List PRow) (ns : List NRow) (r : PRow) (hr : r ∈ ps) :
    ∃ a, lookupNode (buildGraph ps (ns.filter keepRow)) (.pid r.pid) = some (some a) ∧
      a.color = if r.pid ∈ (ns.filter keepRow).map (fun x => x.pid)
        then "red" else "lightblue" := by
  have hsome := lastPidRow_isSome_of_mem ps r hr
  cases hl : lastPidRow r.pid ps with
  | none => rw [hl] at hsome; simp at hsome
  | some r2 =>
    obtain ⟨hpid2, _⟩ := lastPidRow_spec _ _ _ hl
    refine ⟨pAttrs ((ns.filter keepRow).map (fun x => x.pid)) r2, ?_, ?_⟩
    · unfold buildGraph
      exact foldl_addNetRow_pid_of_some _ _ _ _
        (foldl_addProcessRow_lookup_last _ _ _ _ _ _ hl)
    · show pColor _ r2.pid = _
      rw [hpid2]
      rfl

/-- Witness for C1: a single process with one retained TCPv4 connection. -/
theorem C1_witness :
    ∃ a, lookupNode (buildGraph [⟨4, 0, "System"⟩]
        (([⟨4, 443, RawVal.str "TCPv4", RawVal.str "8.8.8.8"⟩] : List NRow).filter keepRow))
        (.pid 4) = some (some a) ∧
      a.color = if (4 : Int) ∈ (([⟨4, 443, RawVal.str "TCPv4", RawVal.str "8.8.8.8"⟩] :
          List NRow).filter keepRow).map (fun x => x.pid)
        then "red" else "lightblue" :=
  C1_process_node_color [⟨4, 0, "System"⟩]
    [⟨4, 443, RawVal.str "TCPv4", RawVal.str "8.8.8.8"⟩] ⟨4, 0, "System"⟩ (by decide)

/-- C6: the IP node added for a retained connection row with nonzero PID
is colored "lightgreen" when the address starts with "192.168." or "10.",
and "orange" otherwise. -/
theorem C6_ip_node_color (ps : List PRow) (ns : List NRow) (r : NRow)
    (hr : r ∈ ns.filter keepRow) (hpid : r.pid ≠ 0) :
    lookupNode (buildGraph ps (ns.filter keepRow)) (.addr (getAddrStr r.addr)) =
      some (some
        { label := getAddrStr r.addr
          color := if startsW (getAddrStr r.addr) "192.168." ||
              startsW (getAddrStr r.addr) "10." then "lightgreen" else "orange"
          shape := "box" }) := by
  have hf := keepRow_not_falsy r (List.mem_filter.mp hr).2
  have hcond : ∃ x ∈ ns.filter keepRow, ¬(x.pid = 0 ∨ ipFalsy x.addr = true) ∧
      getAddrStr x.addr = getAddrStr r.addr := by
    refine ⟨r, hr, ?_, rfl⟩
    rintro (h0 | h0)
    · exact hpid h0
    · rw [hf] at h0; exact absurd h0 (by simp)
  unfold buildGraph
  rw [foldl_addNetRow_lookup_addr, if_pos hcond]
  simp [ipAttrs, ipColor_eq]

/-- Witness for C6: a public address gives an orange box node. -/
theorem C6_witness :
    lookupNode (buildGraph ([] : List PRow)
        (([⟨5, 443, RawVal.str "TCPv4", RawVal.str "8.8.8.8"⟩] : List NRow).filter keepRow))
      (.addr "8.8.8.8") = some (some ⟨"8.8.8.8", "orange", "box"⟩) := by
  have h := C6_ip_node_color [] [⟨5, 443, RawVal.str "TCPv4", RawVal.str "8.8.8.8"⟩]
    ⟨5, 443, RawVal.str "TCPv4", RawVal.str "8.8.8.8"⟩ (by decide) (by decide)
  exact h

/-- C7: rows are processed in file order and node insertion is
last-write-wins: the process node for PID `p` carries exactly the label
and color computed from the last pslist row whose PID is `p`. -/
theorem C7_last_write_wins (ps : List PRow) (ns : List NRow) (p : Int) (r : PRow)
    (h : lastPidRow p ps = some r) :
    lookupNode (buildGraph ps (ns.filter keepRow)) (.pid p) =
      some (some (pAttrs ((ns.filter keepRow).map (fun x => x.pid)) r)) := by
  unfold buildGraph
  exact foldl_addNetRow_pid_of_some _ _ _ _
    (foldl_addProcessRow_lookup_last _ _ _ _ _ _ h)

/-- Witness for C7: two rows share PID 7; the second row's name wins. -/
theorem C7_witness :
    lookupNode (buildGraph [⟨7, 0, "old"⟩, ⟨7, 0, "new"⟩] (([] : List NRow).filter keepRow))
      (.pid 7) =
      some (some (pAttrs ((([] : List NRow).filter keepRow).map (fun x => x.pid))
        ⟨7, 0, "new"⟩)) :=
  C7_last_write_wins [⟨7, 0, "old"⟩, ⟨7, 0, "new"⟩] [] 7 ⟨7, 0, "new"⟩ (by decide)

/-- C9: every retained connection row has a non-falsy ForeignAddr, so the
`not ip` half of the skip test never fires and the skip condition is
equivalent to `PID == 0`. -/
theorem C9_skip_equiv (r : NRow) (h : keepRow r = true) :
    ipFalsy r.addr = false ∧ ((r.pid = 0 ∨ ipFalsy r.addr = true) ↔ r.pid = 0) := by
  have hf := keepRow_not_falsy r h
  refine ⟨hf, ?_, Or.inl⟩
  rintro (h0 | h0)
  · exact h0
  · rw [hf] at h0
    exact absurd h0 (by simp)

/-- Witness for C9 on a concrete retained row. -/
theorem C9_witness :
    ipFalsy (RawVal.str "8.8.8.8") = false ∧
      (((5 : Int) = 0 ∨ ipFalsy (RawVal.str "8.8.8.8") = true) ↔ (5 : Int) = 0) :=
  C9_skip_equiv ⟨5, 443, RawVal.str "TCPv4", RawVal.str "8.8.8.8"⟩ (by decide)

theorem keepRow_true_iff (r : NRow) :
    keepRow r = true ↔ (r.proto = RawVal.str "TCPv4" ∧ matchesIPv4 r.addr = true ∧
      r.addr ≠ RawVal.str "0.0.0.0") := by
  constructor
  · intro h
    have h1 : protoTCPv4 r.proto = true := by
      simp [keepRow, Bool.and_eq_true] at h; tauto
    have h2 : matchesIPv4 r.addr = true := by
      simp [keepRow, Bool.and_eq_true] at h; tauto
    obtain ⟨s, ha, _, hne⟩ := keepRow_addr r h
    refine ⟨?_, h2, ?_⟩
    · cases hp : r.proto with
      | str s2 =>
        rw [hp] at h1
        simp [protoTCPv4] at h1
        rw [h1]
      | num n => rw [hp] at h1; simp [protoTCPv4] at h1
      | na => rw [hp] at h1; simp [protoTCPv4] at h1
    · rw [ha]
      intro hh
      injection hh with hh2
      exact hne hh2
  · rintro ⟨h1, h2, h3⟩
    cases ha : r.addr with
    | str s =>
      rw [ha] at h2 h3
      have h4 : s ≠ "0.0.0.0" := by
        intro hh; exact h3 (by rw [hh])
      unfold keepRow
      rw [h1, ha]
      simp [protoTCPv4, matchesIPv4, addrNe0, h4]
      exact h2
    | num n => rw [ha] at h2; simp [matchesIPv4] at h2
    | na => rw [ha] at h2; simp [matchesIPv4] at h2

theorem loadNetscan_ok_filter (t : RawTable) (rs : List NRow)
    (h : loadNetscan (.table t) = .ok rs) :
    rs = (t.rows.map coerceN).filter keepRow := by
  simp only [loadNetscan] at h
  by_cases h1 : requiredNetscanCols.all (fun c => decide (c ∈ t.columns)) = true
  · rw [if_pos h1] at h
    by_cases h2 : "Proto" ∈ t.columns
    · rw [if_pos h2] at h
      by_cases h3 : strAccessorFails t
      · rw [if_pos h3] at h
        exact absurd h (by simp)
      · rw [if_neg h3] at h
        injection h with h4
        exact h4.symm
    · rw [if_neg h2] at h
      exact absurd h (by simp)
  · rw [if_neg h1] at h
    exact absurd h (by simp)

/-- C2: the retained connection rows are exactly the rows of the netscan
table whose Proto cell is the string "TCPv4", whose ForeignAddr matches
the dotted-quad regex, and whose ForeignAddr is not "0.0.0.0" — no other
filtering. -/
theorem C2_netscan_filter (t : RawTable) (rs : List NRow)
    (h : loadNetscan (.table t) = .ok rs) :
    rs = (t.rows.map coerceN).filter
      (fun r => decide (r.proto = RawVal.str "TCPv4" ∧ matchesIPv4 r.addr = true ∧
        r.addr ≠ RawVal.str "0.0.0.0")) := by
  rw [loadNetscan_ok_filter t rs h]
  apply List.filter_congr
  intro r _
  cases hk : keepRow r
  · have hno : ¬(r.proto = RawVal.str "TCPv4" ∧ matchesIPv4 r.addr = true ∧
        r.addr ≠ RawVal.str "0.0.0.0") := by
      intro hP
      rw [(keepRow_true_iff r).mpr hP] at hk
      exact Bool.noConfusion hk
    exact (decide_eq_false hno).symm
  · exact (decide_eq_true ((keepRow_true_iff r).mp hk)).symm

/-- Witness for C2 on a two-row netscan table: the TCPv4 row with a
public dotted address is kept, the UDPv4 row is dropped. -/
theorem C2_witness :
    ([⟨4, 443, RawVal.str "TCPv4", RawVal.str "8.8.8.8"⟩] : List NRow) =
      ((RawTable.mk ["PID", "ForeignAddr", "ForeignPort", "Proto"]
        [[("PID", RawVal.num 4), ("ForeignAddr", RawVal.str "8.8.8.8"),
          ("ForeignPort", RawVal.num 443), ("Proto", RawVal.str "TCPv4")],
         [("PID", RawVal.num 5), ("ForeignAddr", RawVal.str "1.2.3.4"),
          ("ForeignPort", RawVal.num 53), ("Proto", RawVal.str "UDPv4")]]).rows.map
          coerceN).filter
        (fun r => decide (r.proto = RawVal.str "TCPv4" ∧ matchesIPv4 r.addr = true ∧
          r.addr ≠ RawVal.str "0.0.0.0")) :=
  C2_netscan_filter
    (RawTable.mk ["PID", "ForeignAddr", "ForeignPort", "Proto"]
      [[("PID", RawVal.num 4), ("ForeignAddr", RawVal.str "8.8.8.8"),
        ("ForeignPort", RawVal.num 443), ("Proto", RawVal.str "TCPv4")],
       [("PID", RawVal.num 5), ("ForeignAddr", RawVal.str "1.2.3.4"),
        ("ForeignPort", RawVal.num 53), ("Proto", RawVal.str "UDPv4")]])
    [⟨4, 443, RawVal.str "TCPv4", RawVal.str "8.8.8.8"⟩] (by rfl)

/-- C3 counterexample: with valid input tables and a failing `net.show`
call, the program handles the failure but does NOT exit — it finishes,
having produced the HTML through the manual fallback (an alternative
result).  This refutes the claim that the only recovery behaviour for
every handled failure is printing an error and exiting. -/
theorem C3_counterexample :
    (runProgram
        (.table ⟨["PID", "PPID", "ImageFileName"],
          [[("PID", RawVal.num 4), ("PPID", RawVal.num 0),
            ("ImageFileName", RawVal.str "System")]]⟩)
        (.table ⟨["PID", "ForeignAddr", "ForeignPort", "Proto"], []⟩) true).fellBack = true ∧
    (runProgram
        (.table ⟨["PID", "PPID", "ImageFileName"],
          [[("PID", RawVal.num 4), ("PPID", RawVal.num 0),
            ("ImageFileName", RawVal.str "System")]]⟩)
        (.table ⟨["PID", "ForeignAddr", "ForeignPort", "Proto"], []⟩) true).isExited =
      false :=
  ⟨rfl, rfl⟩

/-- C3 (amended): every failure handled during CSV loading only prints an
error and exits; the handled failure of the interactive `net.show` call
is the exception — the program prints a warning, writes the HTML through
the manual fallback and continues to completion with the same graph. -/
theorem C3_error_handling :
    (∀ psIn nsIn sf, isErrorE (loadPslist psIn) = true →
      (runProgram psIn nsIn sf).isExited = true) ∧
    (∀ psIn nsIn sf, isErrorE (loadNetscan nsIn) = true →
      (runProgram psIn nsIn sf).isExited = true) ∧
    (∀ psIn nsIn sf ps ns, loadPslist psIn = .ok ps → loadNetscan nsIn = .ok ns →
      isErrorE (nodeColors (buildGraph ps ns).nodes) = false →
      runProgram psIn nsIn sf = .finished (buildGraph ps ns) sf) := by
  refine ⟨?_, ?_, ?_⟩
  · intro psIn nsIn sf h
    unfold runProgram
    cases hps : loadPslist psIn with
    | error m => rfl
    | ok ps => rw [hps] at h; simp [isErrorE] at h
  · intro psIn nsIn sf h
    unfold runProgram
    cases hps : loadPslist psIn with
    | error m => rfl
    | ok ps =>
      cases hns : loadNetscan nsIn with
      | error m => rfl
      | ok ns => rw [hns] at h; simp [isErrorE] at h
  · intro psIn nsIn sf ps ns hps hns hcol
    unfold runProgram
    rw [hps, hns]
    cases hnc : nodeColors (buildGraph ps ns).nodes with
    | error m => rw [hnc] at hcol; simp [isErrorE] at hcol
    | ok cs => simp only [hnc]

/-- Witness for C3 (amended), exercising all three branches: a missing
pslist file exits, an unparseable netscan file exits, and a show failure
on good input finishes with the fallback. -/
theorem C3_witness :
    (runProgram .missing .missing false).isExited = true ∧
    (runProgram
        (.table ⟨["PID", "PPID", "ImageFileName"],
          [[("PID", RawVal.num 4), ("PPID", RawVal.num 0),
            ("ImageFileName", RawVal.str "System")]]⟩)
        (.parseError "bad line") false).isExited = true ∧
    runProgram
        (.table ⟨["PID", "PPID", "ImageFileName"],
          [[("PID", RawVal.num 4), ("PPID", RawVal.num 0),
            ("ImageFileName", RawVal.str "System")]]⟩)
        (.table ⟨["PID", "ForeignAddr", "ForeignPort", "Proto"], []⟩) true =
      .finished (buildGraph [⟨4, 0, "System"⟩] []) true :=
  ⟨C3_error_handling.1 .missing .missing false rfl,
   C3_error_handling.2.1 _ (.parseError "bad line") false rfl,
   C3_error_handling.2.2 _ _ true [⟨4, 0, "System"⟩] [] rfl rfl rfl⟩

/-- C10: a solid (parent-to-child) edge (PPID, PID) exists iff some
pslist row has that PID and its coerced PPID is nonzero and occurs among
the pslist PIDs; consequently both endpoints of every solid edge are
process PIDs present in pslist, and non-numeric or missing PID/PPID
cells coerce to 0 (which never yields a parent edge). -/
theorem C10_parent_edges :
    (∀ (ps : List PRow) (ns : List NRow) (u v : NodeId),
      edgeAttr (buildGraph ps (ns.filter keepRow)) u v = some solidAttrs ↔
        ∃ r ∈ ps, u = .pid r.ppid ∧ v = .pid r.pid ∧
          r.ppid ∈ ps.map (fun x => x.pid) ∧ r.ppid ≠ 0) ∧
    (∀ (ps : List PRow) (ns : List NRow) (u v : NodeId),
      edgeAttr (buildGraph ps (ns.filter keepRow)) u v = some solidAttrs →
        ∃ a b, u = .pid a ∧ v = .pid b ∧ a ∈ ps.map (fun x => x.pid) ∧
          b ∈ ps.map (fun x => x.pid)) ∧
    (∀ s, coerceInt (.str s) = 0) ∧ coerceInt .na = 0 := by
  have main : ∀ (ps : List PRow) (ns : List NRow) (u v : NodeId),
      edgeAttr (buildGraph ps (ns.filter keepRow)) u v = some solidAttrs ↔
        ∃ r ∈ ps, u = .pid r.ppid ∧ v = .pid r.pid ∧
          r.ppid ∈ ps.map (fun x => x.pid) ∧ r.ppid ≠ 0 := by
    intro ps ns u v
    unfold buildGraph
    cases v with
    | pid b =>
      rw [foldl_addNetRow_edgeAttr_pid_target, foldl_addProcessRow_edgeAttr]
      by_cases hC : ∃ r ∈ ps, u = NodeId.pid r.ppid ∧ NodeId.pid b = NodeId.pid r.pid ∧
          r.ppid ∈ ps.map (fun x => x.pid) ∧ r.ppid ≠ 0
      · rw [if_pos hC]
        exact ⟨fun _ => hC, fun _ => rfl⟩
      · rw [if_neg hC, edgeAttr_empty]
        constructor
        · intro hh; exact absurd hh (by simp)
        · intro hh; exact absurd hh hC
    | addr s =>
      have hn : ¬ ∃ r ∈ ps, u = NodeId.pid r.ppid ∧ NodeId.addr s = NodeId.pid r.pid ∧
          r.ppid ∈ ps.map (fun x => x.pid) ∧ r.ppid ≠ 0 := by
        rintro ⟨r, _, _, h3, _⟩
        exact NodeId.noConfusion h3
      have h1 : edgeAttr (ps.foldl (addProcessRow
          ((ns.filter keepRow).map (fun r => r.pid)) (ps.map (fun r => r.pid)))
          Graph.empty) u (.addr s) ≠ some solidAttrs := by
        rw [foldl_addProcessRow_edgeAttr, if_neg hn, edgeAttr_empty]
        simp
      have h2 := foldl_addNetRow_edgeAttr_not_solid (ns.filter keepRow) _ u (.addr s) h1
      constructor
      · intro hh; exact absurd hh h2
      · rintro ⟨r, _, _, h3, _⟩
        exact NodeId.noConfusion h3
  refine ⟨main, ?_, fun s => rfl, rfl⟩
  intro ps ns u v h
  obtain ⟨r, hr, hu, hv, hm, _⟩ := (main ps ns u v).mp h
  exact ⟨r.ppid, r.pid, hu, hv, hm, List.mem_map.mpr ⟨r, hr, rfl⟩⟩

/-- Witness for C10: the edge (1, 2) produced by the child row has both
endpoints among the pslist PIDs. -/
theorem C10_witness :
    ∃ a b, (NodeId.pid 1 : NodeId) = .pid a ∧ (NodeId.pid 2 : NodeId) = .pid b ∧
      a ∈ ([⟨1, 0, "init"⟩, ⟨2, 1, "child"⟩] : List PRow).map (fun x => x.pid) ∧
      b ∈ ([⟨1, 0, "init"⟩, ⟨2, 1, "child"⟩] : List PRow).map (fun x => x.pid) :=
  C10_parent_edges.2.1 [⟨1, 0, "init"⟩, ⟨2, 1, "child"⟩] [] (.pid 1) (.pid 2) (by rfl)

/-- C8: the static render reads every node's "color" attribute, so it
succeeds only when every retained connection row's nonzero PID also
occurs as a pslist PID; on the concrete violating input, the edge
insertion left an attribute-less node for PID 99 and the color lookup
fails with a KeyError. -/
theorem C8_render_precondition :
    (∀ (ps : List PRow) (ns : List NRow),
      isErrorE (nodeColors (buildGraph ps (ns.filter keepRow)).nodes) = false →
      ∀ r ∈ ns.filter keepRow, r.pid ≠ 0 → r.pid ∈ ps.map (fun x => x.pid)) ∧
    lookupNode (buildGraph [⟨4, 0, "System"⟩]
        (([⟨99, 443, RawVal.str "TCPv4", RawVal.str "8.8.8.8"⟩] : List NRow).filter keepRow))
        (.pid 99) = some none ∧
    nodeColors (buildGraph [⟨4, 0, "System"⟩]
        (([⟨99, 443, RawVal.str "TCPv4", RawVal.str "8.8.8.8"⟩] : List NRow).filter
          keepRow)).nodes = .error "KeyError: color" := by
  refine ⟨?_, rfl, rfl⟩
  intro ps ns h r hr hpid
  by_contra hmem
  have hall : ∀ x ∈ ps, x.pid ≠ r.pid := by
    intro x hx heq
    exact hmem (List.mem_map.mpr ⟨x, hx, heq⟩)
  have hact : ¬(r.pid = 0 ∨ ipFalsy r.addr = true) := by
    have hf := keepRow_not_falsy r (List.mem_filter.mp hr).2
    rintro (h0 | h0)
    · exact hpid h0
    · rw [hf] at h0; exact Bool.noConfusion h0
  have h2 : lookupNode (buildGraph ps (ns.filter keepRow)) (.pid r.pid) = some none := by
    unfold buildGraph
    exact foldl_addNetRow_pid_none _ _ _
      (foldl_addProcessRow_weak _ _ _ _ _ hall (Or.inl rfl)) ⟨r, hr, hact, rfl⟩
  have h3 := (nodeColors_ok_iff _).mp h
  have h4 : (NodeId.pid r.pid, (none : Option NodeAttrs)) ∈
      (buildGraph ps (ns.filter keepRow)).nodes := lookupN_mem _ _ _ h2
  have h5 := h3 _ h4
  simp at h5

/-- Witness for C8: on an input where the static render succeeds, the
retained row's PID 99 indeed occurs among the pslist PIDs. -/
theorem C8_witness :
    (99 : Int) ∈ ([⟨99, 0, "svchost"⟩] : List PRow).map (fun x => x.pid) :=
  C8_render_precondition.1 [⟨99, 0, "svchost"⟩]
    [⟨99, 443, RawVal.str "TCPv4", RawVal.str "8.8.8.8"⟩] (by rfl)
    ⟨99, 443, RawVal.str "TCPv4", RawVal.str "8.8.8.8"⟩ (by decide) (by decide)

/-- C4: the node set of the constructed digraph is exactly the pslist
PIDs together with the ForeignAddr strings and the PIDs of retained
connection rows with nonzero PID; the edge set is exactly the
parent-to-child edges plus one process-to-IP edge per such retained
row. -/
theorem C4_graph_shape (ps : List PRow) (ns : List NRow) (i u v : NodeId) :
    (i ∈ nodeIds (buildGraph ps (ns.filter keepRow)) ↔
      (∃ r ∈ ps, i = .pid r.pid) ∨
      (∃ r ∈ ns.filter keepRow, r.pid ≠ 0 ∧ i = .addr (getAddrStr r.addr)) ∨
      (∃ r ∈ ns.filter keepRow, r.pid ≠ 0 ∧ i = .pid r.pid)) ∧
    ((u, v) ∈ edgeKeys (buildGraph ps (ns.filter keepRow)) ↔
      (∃ r ∈ ps, u = .pid r.ppid ∧ v = .pid r.pid ∧
        r.ppid ∈ ps.map (fun x => x.pid) ∧ r.ppid ≠ 0) ∨
      (∃ r ∈ ns.filter keepRow, r.pid ≠ 0 ∧ u = .pid r.pid ∧
        v = .addr (getAddrStr r.addr))) := by
  constructor
  · rw [mem_nodeIds_iff]
    unfold buildGraph
    rw [foldl_addNetRow_isSome, foldl_addProcessRow_isSome]
    simp only [lookupNode_empty, Option.isSome_none, Bool.false_eq_true, false_or]
    constructor
    · rintro (⟨r, hr, hP⟩ | ⟨r, hr, hact, hi⟩)
      · rcases hP with h | ⟨h1, h2, _⟩
        · exact Or.inl ⟨r, hr, h⟩
        · obtain ⟨x, hx, hpx⟩ := List.mem_map.mp h2
          exact Or.inl ⟨x, hx, by rw [h1, hpx]⟩
      · have hpid : r.pid ≠ 0 := fun h0 => hact (Or.inl h0)
        rcases hi with h | h
        · exact Or.inr (Or.inl ⟨r, hr, hpid, h⟩)
        · exact Or.inr (Or.inr ⟨r, hr, hpid, h⟩)
    · rintro (⟨r, hr, h⟩ | ⟨r, hr, hpid, h⟩ | ⟨r, hr, hpid, h⟩)
      · exact Or.inl ⟨r, hr, Or.inl h⟩
      · refine Or.inr ⟨r, hr, ?_, Or.inl h⟩
        have hf := keepRow_not_falsy r (List.mem_filter.mp hr).2
        rintro (h0 | h0)
        · exact hpid h0
        · rw [hf] at h0; exact Bool.noConfusion h0
      · refine Or.inr ⟨r, hr, ?_, Or.inr h⟩
        have hf := keepRow_not_falsy r (List.mem_filter.mp hr).2
        rintro (h0 | h0)
        · exact hpid h0
        · rw [hf] at h0; exact Bool.noConfusion h0
  · rw [mem_edgeKeys_iff]
    unfold buildGraph
    rw [foldl_addNetRow_edgeAttr_isSome, foldl_addProcessRow_edgeAttr]
    constructor
    · rintro (hif | ⟨r, hr, hact, hu, hv⟩)
      · by_cases hC : ∃ r ∈ ps, u = NodeId.pid r.ppid ∧ v = NodeId.pid r.pid ∧
            r.ppid ∈ ps.map (fun x => x.pid) ∧ r.ppid ≠ 0
        · exact Or.inl hC
        · rw [if_neg hC, edgeAttr_empty] at hif
          exact absurd hif (by simp)
      · exact Or.inr ⟨r, hr, fun h0 => hact (Or.inl h0), hu, hv⟩
    · rintro (hC | ⟨r, hr, hpid, hu, hv⟩)
      · left
        rw [if_pos hC]
        rfl
      · right
        refine ⟨r, hr, ?_, hu, hv⟩
        have hf := keepRow_not_falsy r (List.mem_filter.mp hr).2
        rintro (h0 | h0)
        · exact hpid h0
        · rw [hf] at h0; exact Bool.noConfusion h0

/-- C5 counterexample: a netscan table containing every validated
required column (PID, ForeignAddr, ForeignPort) but no Proto column
still makes the loader error and exit, because the filter reads the
unvalidated Proto column — refuting the claim's "if and only if". -/
theorem C5_counterexample :
    requiredNetscanCols.all (fun c => decide (c ∈
      (RawTable.mk ["PID", "ForeignAddr", "ForeignPort"] []).columns)) = true ∧
    isErrorE (loadNetscan
      (.table (RawTable.mk ["PID", "ForeignAddr", "ForeignPort"] []))) = true :=
  ⟨rfl, rfl⟩

/-- C5 (amended): a loader prints an error and exits with status 1 iff
the file is missing, the CSV fails to parse, or the columns do not
include the required set — where the netscan loader additionally fails
when the (unvalidated) Proto column read by the filter is absent, or
when the nonempty ForeignAddr column holds no string value so that
line 51's `.str` accessor raises; on success all required columns are
present, and every exit carries status 1. -/
theorem C5_loader_validation :
    (∀ inp, isErrorE (loadPslist inp) = true ↔
      (inp = .missing ∨ (∃ m, inp = .parseError m) ∨
        ∃ t, inp = .table t ∧ ¬(∀ c ∈ requiredPslistCols, c ∈ t.columns))) ∧
    (∀ inp, isErrorE (loadNetscan inp) = true ↔
      (inp = .missing ∨ (∃ m, inp = .parseError m) ∨
        ∃ t, inp = .table t ∧
          (¬(∀ c ∈ requiredNetscanCols, c ∈ t.columns) ∨ "Proto" ∉ t.columns ∨
            strAccessorFails t))) ∧
    (∀ t ps, loadPslist (.table t) = .ok ps → ∀ c ∈ requiredPslistCols, c ∈ t.columns) ∧
    (∀ t ns, loadNetscan (.table t) = .ok ns → ∀ c ∈ requiredNetscanCols, c ∈ t.columns) ∧
    (∀ psIn nsIn sf c m, runProgram psIn nsIn sf = .exited c m → c = 1) := by
  refine ⟨?_, ?_, ?_, ?_, ?_⟩
  · intro inp
    cases inp with
    | missing =>
      constructor
      · intro _; exact Or.inl rfl
      · intro _; rfl
    | parseError m =>
      constructor
      · intro _; exact Or.inr (Or.inl ⟨m, rfl⟩)
      · intro _; rfl
    | table t =>
      by_cases hall : requiredPslistCols.all (fun c => decide (c ∈ t.columns)) = true
      · have hmem : ∀ c ∈ requiredPslistCols, c ∈ t.columns := fun c hc =>
          of_decide_eq_true (List.all_eq_true.mp hall c hc)
        constructor
        · intro hE
          have hok : isErrorE (loadPslist (.table t)) = false := by
            simp only [loadPslist]
            rw [if_pos hall]
            rfl
          rw [hok] at hE
          exact absurd hE (by simp)
        · rintro (h | ⟨m, h⟩ | ⟨t2, h, hcond⟩)
          · exact absurd h (by simp)
          · exact absurd h (by simp)
          · injection h with h2
            subst h2
            exact absurd hmem hcond
      · have hnmem : ¬(∀ c ∈ requiredPslistCols, c ∈ t.columns) := by
          intro hmem
          apply hall
          rw [List.all_eq_true]
          intro c hc
          exact decide_eq_true (hmem c hc)
        constructor
        · intro _
          exact Or.inr (Or.inr ⟨t, rfl, hnmem⟩)
        · intro _
          simp only [loadPslist]
          rw [if_neg hall]
          rfl
  · intro inp
    cases inp with
    | missing =>
      constructor
      · intro _; exact Or.inl rfl
      · intro _; rfl
    | parseError m =>
      constructor
      · intro _; exact Or.inr (Or.inl ⟨m, rfl⟩)
      · intro _; rfl
    | table t =>
      by_cases hall : requiredNetscanCols.all (fun c => decide (c ∈ t.columns)) = true
      · have hmem : ∀ c ∈ requiredNetscanCols, c ∈ t.columns := fun c hc =>
          of_decide_eq_true (List.all_eq_true.mp hall c hc)
        by_cases hp : "Proto" ∈ t.columns
        · by_cases hstr : strAccessorFails t
          · constructor
            · intro _
              exact Or.inr (Or.inr ⟨t, rfl, Or.inr (Or.inr hstr)⟩)
            · intro _
              simp only [loadNetscan]
              rw [if_pos hall, if_pos hp, if_pos hstr]
              rfl
          · constructor
            · intro hE
              have hok : isErrorE (loadNetscan (.table t)) = false := by
                simp only [loadNetscan]
                rw [if_pos hall, if_pos hp, if_neg hstr]
                rfl
              rw [hok] at hE
              exact absurd hE (by simp)
            · rintro (h | ⟨m, h⟩ | ⟨t2, h, hcond⟩)
              · exact absurd h (by simp)
              · exact absurd h (by simp)
              · injection h with h2
                subst h2
                rcases hcond with hc | hc | hc
                · exact absurd hmem hc
                · exact absurd hp hc
                · exact absurd hc hstr
        · constructor
          · intro _
            exact Or.inr (Or.inr ⟨t, rfl, Or.inr (Or.inl hp)⟩)
          · intro _
            simp only [loadNetscan]
            rw [if_pos hall, if_neg hp]
            rfl
      · have hnmem : ¬(∀ c ∈ requiredNetscanCols, c ∈ t.columns) := by
          intro hmem
          apply hall
          rw [List.all_eq_true]
          intro c hc
          exact decide_eq_true (hmem c hc)
        constructor
        · intro _
          exact Or.inr (Or.inr ⟨t, rfl, Or.inl hnmem⟩)
        · intro _
          simp only [loadNetscan]
          rw [if_neg hall]
          rfl
  · intro t ps h c hc
    by_cases hall : requiredPslistCols.all (fun c => decide (c ∈ t.columns)) = true
    · exact of_decide_eq_true (List.all_eq_true.mp hall c hc)
    · simp only [loadPslist] at h
      rw [if_neg hall] at h
      exact absurd h (by simp)
  · intro t ns h c hc
    by_cases hall : requiredNetscanCols.all (fun c => decide (c ∈ t.columns)) = true
    · exact of_decide_eq_true (List.all_eq_true.mp hall c hc)
    · simp only [loadNetscan] at h
      rw [if_neg hall] at h
      exact absurd h (by simp)
  · intro psIn nsIn sf c m h
    cases hps : loadPslist psIn with
    | error m2 =>
      simp only [runProgram, hps] at h
      injection h with h1 h2
      exact h1.symm
    | ok ps =>
      cases hns : loadNetscan nsIn with
      | error m2 =>
        simp only [runProgram, hps, hns] at h
        injection h with h1 h2
        exact h1.symm
      | ok ns =>
        cases hnc : nodeColors (buildGraph ps ns).nodes with
        | error m2 =>
          simp only [runProgram, hps, hns, hnc] at h
          exact Result.noConfusion h
        | ok cs =>
          simp only [runProgram, hps, hns, hnc] at h
          exact Result.noConfusion h

/-- Witness for C5 (amended) across its branches: a missing pslist file
errors, a Proto-less netscan table errors, a netscan table whose
ForeignAddr column has no string value errors, successful loads imply
the required columns are present, and an actual exit carries status 1. -/
theorem C5_witness :
    isErrorE (loadPslist .missing) = true ∧
    isErrorE (loadNetscan (.table (RawTable.mk ["PID"] []))) = true ∧
    isErrorE (loadNetscan (.table (RawTable.mk
      ["PID", "ForeignAddr", "ForeignPort", "Proto"]
      [[("PID", RawVal.num 4), ("ForeignAddr", RawVal.na),
        ("ForeignPort", RawVal.num 443), ("Proto", RawVal.str "TCPv4")]]))) = true ∧
    "PID" ∈ (RawTable.mk ["PID", "PPID", "ImageFileName"] []).columns ∧
    "ForeignAddr" ∈
      (RawTable.mk ["PID", "ForeignAddr", "ForeignPort", "Proto"] []).columns ∧
    (1 : Nat) = 1 := by
  refine ⟨?_, ?_, ?_, ?_, ?_, ?_⟩
  · exact (C5_loader_validation.1 .missing).mpr (Or.inl rfl)
  · exact (C5_loader_validation.2.1 (.table (RawTable.mk ["PID"] []))).mpr
      (Or.inr (Or.inr ⟨RawTable.mk ["PID"] [], rfl, Or.inl (by decide)⟩))
  · exact (C5_loader_validation.2.1 (.table (RawTable.mk
      ["PID", "ForeignAddr", "ForeignPort", "Proto"]
      [[("PID", RawVal.num 4), ("ForeignAddr", RawVal.na),
        ("ForeignPort", RawVal.num 443), ("Proto", RawVal.str "TCPv4")]]))).mpr
      (Or.inr (Or.inr ⟨_, rfl, Or.inr (Or.inr ⟨by decide, by decide⟩)⟩))
  · exact C5_loader_validation.2.2.1 (RawTable.mk ["PID", "PPID", "ImageFileName"] [])
      [] (by rfl) "PID" (by decide)
  · exact C5_loader_validation.2.2.2.1
      (RawTable.mk ["PID", "ForeignAddr", "ForeignPort", "Proto"] [])
      [] (by rfl) "ForeignAddr" (by decide)
  · exact C5_loader_validation.2.2.2.2 .missing .missing false 1
      "Error: pslist.csv not found." (by rfl)

end MemGlance
